import Mathlib

/-!
Verification development for the `dynamic_preferences` preference-storage
layer (`dynamic_preferences/models.py`).

The embedding is shallow and pure:

* A preference value type `V` is kept abstract (a type parameter).
* The external serializer collaborator is a pair of partial functions
  (`Option`-valued: `none` models the raised `SerializationError` /
  `DeserializationError`).
* The external registry collaborator is a finite list of preference
  definitions with a `(section, name)` lookup (`none` models the
  `LookupError`-kind failure of `registry.get`).
* A `Record` is the in-memory state of a `BasePreferenceModel` instance:
  primary key `pk` (present iff the row is persisted), `section`
  (nullable text), `name`, `raw_value` (nullable text) and `owner`
  (models the `instance` foreign key of `PerInstancePreferenceModel`;
  `none` for the global scope).
* A Python exception raised by a mutating method is modelled as
  `Except (PrefError × Record) _`: the error carries the state of the
  record at the moment the exception propagates.
* The Python dict built by `PreferenceModelManager.to_dict` is modelled
  extensionally as `Option String → Option (String → Option V)`: the
  outer `Option` distinguishes a missing section key (the `KeyError`
  branch of the source) from a present one.
-/

namespace DynamicPreferences

/-- Error kinds of the layer, matching the spec's taxonomy. -/
inductive PrefError : Type where
  | lookupError
  | serializationError
  | deserializationError
deriving DecidableEq, Repr

/-- External serializer capability of a preference definition:
`serialize : Value -> Text` (`none` = `SerializationError` raised) and
`deserialize : Text -> Value` (`none` = `DeserializationError` raised).
`deserialize` takes an `Option String` because `raw_value` is a nullable
text field. -/
structure Serializer (V : Type) where
  serialize : V → Option String
  deserialize : Option String → Option V

/-- External preference definition (a "Preference" descriptor): identified
by `(section, name)`, carrying a default value and a serializer. -/
structure Preference (V : Type) where
  «section» : Option String
  name : String
  default : V
  serializer : Serializer V

/-- External registry collaborator: a finite collection of preference
definitions for one scope. -/
structure Registry (V : Type) where
  prefs : List (Preference V)

/-- `registry.get(section=..., name=...)`: resolve `(section, name)` to a
definition; `none` models the `LookupError`-kind failure. -/
def Registry.get (reg : Registry V) (s : Option String) (n : String) :
    Option (Preference V) :=
  reg.prefs.find? (fun p => decide (p.«section» = s) && decide (p.name = n))

/-- In-memory state of a `BasePreferenceModel` instance after Django's
`Model.__init__` has populated the fields (either from constructor kwargs
for a fresh instance or from the loaded row for a persisted one). -/
structure Record where
  pk : Option Nat
  «section» : Option String
  name : String
  raw_value : Option String
  owner : Option Nat
deriving DecidableEq, Repr

/-- `self.preference` (the `cached_property`):
`self.registry.get(section=self.«section», name=self.name)`. The registry is
pure here, so memoization is behaviourally invisible. -/
def preferenceOf (reg : Registry V) (r : Record) : Option (Preference V) :=
  reg.get r.«section» r.name

/-- `BasePreferenceModel.get_value`:
`return self.preference.serializer.deserialize(self.raw_value)`.
Fails with `lookupError` when the registry has no definition for the
record's coordinates, with `deserializationError` when `raw_value` is not
decodable. -/
def get_value (reg : Registry V) (r : Record) : Except PrefError V :=
  match preferenceOf reg r with
  | none => .error .lookupError
  | some pref =>
    match pref.serializer.deserialize r.raw_value with
    | none => .error .deserializationError
    | some v => .ok v

/-- `BasePreferenceModel.set_value`:
`self.raw_value = self.preference.serializer.serialize(value)`.
The right-hand side is evaluated first; an exception raised there
propagates with the record still in its pre-call state (the error carries
that state). Only on success is `raw_value` assigned. -/
def set_value (reg : Registry V) (r : Record) (v : V) :
    Except (PrefError × Record) Record :=
  match preferenceOf reg r with
  | none => .error (.lookupError, r)
  | some pref =>
    match pref.serializer.serialize v with
    | none => .error (.serializationError, r)
    | some s => .ok { r with raw_value := some s }

/-- `BasePreferenceModel.__init__`. `value_kwarg` models the `"value"`
entry of `kwargs`: `none` = key absent, `some none` = `value=None` passed
explicitly, `some (some v)` = `value=v` passed. The source does
`v = kwargs.pop("value", None)`, then after `super().__init__` checks
`new = self.pk is None`; for a new instance it runs `self.value = v` when
`v is not None`, else `self.value = self.preference.default`. `base` is
the record state right after `super().__init__`. -/
def Record.init (reg : Registry V) (base : Record)
    (value_kwarg : Option (Option V)) : Except (PrefError × Record) Record :=
  let v : Option V := value_kwarg.getD none
  let new := base.pk.isNone
  if new then
    match v with
    | some v => set_value reg base v
    | none =>
      match preferenceOf reg base with
      | none => .error (.lookupError, base)
      | some pref => set_value reg base pref.default
  else
    .ok base

/-- The nested mapping `{section: {name: value}}` built by `to_dict`,
modelled extensionally; the outer `Option` marks whether the section key
is present in the dict. -/
def Outer (V : Type) : Type := Option String → Option (String → Option V)

/-- The empty dict `d = {}`. -/
def Outer.empty : Outer V := fun _ => none

/-- Lookup `d[s][n]` as a total function (`none` when either key is
missing). -/
def lookup2 (d : Outer V) (s : Option String) (n : String) : Option V :=
  match d s with
  | none => none
  | some m => m n

/-- One iteration of the `to_dict` loop body for a record `p` whose
`p.value` evaluated to `v`:
`try: d[p.«section»][p.name] = p.value`
`except KeyError: d[p.«section»] = {}; d[p.«section»][p.name] = p.value`.
The inner dict is the existing `d[p.«section»]` when the key is present,
a fresh empty dict otherwise; in both cases it is then updated at
`p.name` and stored back under `p.«section»`. -/
def stepDict (d : Outer V) (p : Record) (v : V) : Outer V :=
  let inner : String → Option V :=
    match d p.«section» with
    | some m => m
    | none => fun _ => none
  fun s =>
    if s = p.«section» then some (fun n => if n = p.name then some v else inner n)
    else d s

/-- The `for p in preferences:` loop of `PreferenceModelManager.to_dict`,
threading the dict `d`. Evaluating `p.value` first (Python evaluates the
right-hand side of the assignment before subscripting `d`) may raise,
aborting the whole call. -/
def to_dict_go (reg : Registry V) (d : Outer V) :
    List Record → Except PrefError (Outer V)
  | [] => .ok d
  | p :: ps =>
    match get_value reg p with
    | .error e => .error e
    | .ok v => to_dict_go reg (stepDict d p v) ps

/-- Field-equality kwargs accepted by `to_dict(**kwargs)`, restricted to
the model's fields: `section`, `name` and the per-instance owner
reference. A `none` component means the kwarg is absent. -/
structure Filter where
  «section» : Option (Option String)
  name : Option String
  owner : Option (Option Nat)
deriving DecidableEq, Repr

/-- `if kwargs:` — whether the kwargs dict is non-empty. -/
def Filter.isEmpty (f : Filter) : Bool :=
  f.«section».isNone && f.name.isNone && f.owner.isNone

/-- `preferences.filter(**kwargs)` membership test: every supplied kwarg
must equal the record's field. -/
def Filter.matches (f : Filter) (p : Record) : Bool :=
  (match f.«section» with | none => true | some s => decide (p.«section» = s)) &&
  (match f.name with | none => true | some n => decide (p.name = n)) &&
  (match f.owner with | none => true | some o => decide (p.owner = o))

/-- The kwargs dict with no entries (`to_dict()` called without filters). -/
def Filter.empty : Filter := ⟨none, none, none⟩

/-- `preferences = self.get_queryset().all()`, then
`if kwargs: preferences = preferences.filter(**kwargs)`. `qs` is the
scan order the storage engine returns the rows in. -/
def queryset (f : Filter) (qs : List Record) : List Record :=
  if f.isEmpty then qs else qs.filter f.matches

/-- `PreferenceModelManager.to_dict`: filter, then fold the records into
the nested dict starting from `d = {}`. -/
def to_dict (reg : Registry V) (f : Filter) (qs : List Record) :
    Except PrefError (Outer V) :=
  to_dict_go reg Outer.empty (queryset f qs)

/-- The value of the last record in the list with coordinates `(s, n)`
that the `value` accessor decodes ( `none` when no record matches or the
matching one fails to decode). The recursion inspects the tail first, so
later records take precedence, mirroring dict overwrite. -/
def lastVal (reg : Registry V) (s : Option String) (n : String) :
    List Record → Option V
  | [] => none
  | p :: ps =>
    match lastVal reg s n ps with
    | some v => some v
    | none =>
      if p.«section» = s ∧ p.name = n then
        match get_value reg p with
        | .ok v => some v
        | .error _ => none
      else none

/-- A preference model class as stored in the `per_instance_preferences`
index: it carries the registry bound to it as a class attribute. -/
structure PreferenceClass (V : Type) where
  registry : Registry V

/-- One invocation of `registry.create_default_preferences(instance)`
performed by the post-save hook. -/
structure ProvisionCall (V : Type) where
  registry : Registry V
  owner : Nat

/-- `create_default_per_instance_preferences(sender, created, instance)`:
`preference_class = per_instance_preferences.get(sender)` followed by
`if created and preference_class:
preference_class.registry.create_default_preferences(instance)`.
The model types that key the index are abstracted as `Nat`; the returned
list records the invocations the hook performs. -/
def create_default_per_instance_preferences
    (per_instance_prefs : Nat → Option (PreferenceClass V))
    (sender : Nat) (created : Bool) (inst : Nat) : List (ProvisionCall V) :=
  let preference_class := per_instance_prefs sender
  match created, preference_class with
  | true, some pc => [⟨pc.registry, inst⟩]
  | _, _ => []

/-! ### Supporting lemmas -/

/-- A dict step updates exactly the processed record's coordinates. -/
lemma lookup2_stepDict (d : Outer V) (p : Record) (v : V) (s : Option String)
    (n : String) :
    lookup2 (stepDict d p v) s n =
      if p.«section» = s ∧ p.name = n then some v else lookup2 d s n := by
  by_cases hs : s = p.«section»
  · subst hs
    by_cases hn : n = p.name
    · subst hn
      simp [stepDict, lookup2]
    · rw [if_neg (fun h => hn h.2.symm)]
      cases hd : d p.«section» <;>
        simp [stepDict, lookup2, hd, hn]
  · rw [if_neg (fun h => hs h.1.symm)]
    cases hd : d s <;>
      simp [stepDict, lookup2, hd, hs]

/-- `lastVal` over an append prefers the suffix. -/
lemma lastVal_append (reg : Registry V) (s : Option String) (n : String)
    (a b : List Record) :
    lastVal reg s n (a ++ b) =
      match lastVal reg s n b with
      | some v => some v
      | none => lastVal reg s n a := by
  induction a with
  | nil =>
    cases hb : lastVal reg s n b <;> simp [lastVal, hb]
  | cons p a ih =>
    simp only [List.cons_append, lastVal, List.append_eq]
    rw [ih]
    cases hb : lastVal reg s n b <;> cases ha : lastVal reg s n a <;>
      simp [lastVal, hb, ha]

/-- If no record of the list sits at `(s, n)`, `lastVal` is `none`. -/
lemma lastVal_eq_none (reg : Registry V) (s : Option String) (n : String)
    (l : List Record) (h : ∀ q ∈ l, ¬(q.«section» = s ∧ q.name = n)) :
    lastVal reg s n l = none := by
  induction l with
  | nil => rfl
  | cons p ps ih =>
    simp only [lastVal, ih (fun q hq => h q (List.mem_cons_of_mem p hq))]
    rw [if_neg (h p (List.mem_cons_self p ps))]

/-- Main invariant of the `to_dict` loop: when every scanned record
decodes, the loop succeeds and each coordinate of the resulting dict holds
the value of the last matching record, falling back to the initial dict. -/
lemma to_dict_go_spec (reg : Registry V) (l : List Record) :
    ∀ d : Outer V, (∀ p ∈ l, ∃ w, get_value reg p = .ok w) →
      ∃ d2, to_dict_go reg d l = .ok d2 ∧
        ∀ s n, lookup2 d2 s n =
          (match lastVal reg s n l with
           | some v => some v
           | none => lookup2 d s n) := by
  induction l with
  | nil =>
    intro d _
    exact ⟨d, rfl, fun s n => by simp [lastVal]⟩
  | cons p ps ih =>
    intro d hdec
    obtain ⟨v, hv⟩ := hdec p (List.mem_cons_self p ps)
    obtain ⟨d2, h2, hl⟩ :=
      ih (stepDict d p v) (fun q hq => hdec q (List.mem_cons_of_mem p hq))
    refine ⟨d2, by simp [to_dict_go, hv, h2], fun s n => ?_⟩
    rw [hl s n]
    simp only [lastVal, hv]
    cases hps : lastVal reg s n ps with
    | some w => simp
    | none =>
      by_cases hc : p.«section» = s ∧ p.name = n
      · simp [lookup2_stepDict, hc]
      · simp [lookup2_stepDict, hc]

/-- Error propagation of the `to_dict` loop: the first record whose
`value` accessor raises aborts the whole loop with that error. -/
lemma to_dict_go_err (reg : Registry V) (e : PrefError) (p : Record)
    (l2 : List Record) :
    ∀ (l1 : List Record) (d : Outer V),
      (∀ q ∈ l1, ∃ w, get_value reg q = .ok w) →
      get_value reg p = .error e →
      to_dict_go reg d (l1 ++ p :: l2) = .error e := by
  intro l1
  induction l1 with
  | nil =>
    intro d _ herr
    simp [to_dict_go, herr]
  | cons q l1 ih =>
    intro d hok herr
    obtain ⟨w, hw⟩ := hok q (List.mem_cons_self q l1)
    simp only [List.cons_append, to_dict_go, hw]
    exact ih _ (fun r hr => hok r (List.mem_cons_of_mem q hr)) herr

/-! ### Concrete instances used to exercise the development -/

/-- A concrete serializer over `Nat` values: unary text (`n` is encoded
as `n` copies of `'x'`), rejecting values `≥ 1000` (so the
`SerializationError` path is reachable) and failing on a null raw value
or any text containing a character other than `'x'` (so the
`DeserializationError` path is reachable). -/
def natSerializer : Serializer Nat where
  serialize := fun v =>
    if v < 1000 then some (String.mk (List.replicate v 'x')) else none
  deserialize := fun s =>
    s.bind fun t => if t.data.all (fun c => c == 'x') then some t.data.length
                    else none

/-- Demo definition at `(some "s", "n")` with default `7`. -/
def demoPref : Preference Nat := ⟨some "s", "n", 7, natSerializer⟩

/-- Demo definition at `(some "s", "n2")` with default `8`. -/
def demoPref2 : Preference Nat := ⟨some "s", "n2", 8, natSerializer⟩

/-- Demo definition at `(some "s2", "n3")` with default `9`. -/
def demoPref3 : Preference Nat := ⟨some "s2", "n3", 9, natSerializer⟩

/-- Demo definition with a null section, at `(none, "n4")`. -/
def demoPrefNull : Preference Nat := ⟨none, "n4", 10, natSerializer⟩

/-- Demo registry holding the four demo definitions. -/
def demoReg : Registry Nat := ⟨[demoPref, demoPref2, demoPref3, demoPrefNull]⟩

/-- A fresh (not yet persisted) record at `(some "s", "n")`. -/
def freshRec : Record := ⟨none, some "s", "n", none, none⟩

/-- A persisted record at `(some "s", "n")` holding raw text `"xxxxxxx"`
(the unary encoding of `7`). -/
def storedRec : Record := ⟨some 1, some "s", "n", some "xxxxxxx", none⟩

/-- A persisted record whose raw text `"ab"` is not decodable. -/
def corruptRec : Record := ⟨some 1, some "s", "n", some "ab", none⟩

/-! ### Claim theorems -/

/-- C1: constructing a fresh record at registered coordinates with no
explicit value serializes the definition's default into `raw_value`, and
the `value` accessor then returns that default (assuming the serializer
round-trips the default). -/
theorem default_materialization (reg : Registry V) (base : Record)
    (pref : Preference V) (s : String)
    (hpk : base.pk = none)
    (hreg : preferenceOf reg base = some pref)
    (hser : pref.serializer.serialize pref.default = some s)
    (hrt : pref.serializer.deserialize (some s) = some pref.default) :
    Record.init reg base none = .ok { base with raw_value := some s } ∧
    get_value reg { base with raw_value := some s } = .ok pref.default := by
  constructor
  · simp [Record.init, set_value, hpk, hreg, hser]
  · have hreg2 : preferenceOf reg { base with raw_value := some s } = some pref :=
      hreg
    simp [get_value, hreg2, hrt]

/-- Witness for C1 on the demo registry: default `7` is serialized to
`"xxxxxxx"` and read back. -/
theorem default_materialization_w :
    Record.init demoReg freshRec none =
      .ok { freshRec with raw_value := some "xxxxxxx" } ∧
    get_value demoReg { freshRec with raw_value := some "xxxxxxx" } = .ok 7 :=
  default_materialization demoReg freshRec demoPref "xxxxxxx" rfl rfl rfl rfl

/-- C2: constructing a fresh record with an explicit value `v` accepted by
the serializer stores `serialize v` and the `value` accessor returns `v`
(assuming the serializer round-trips `v`), regardless of the default. -/
theorem explicit_value_precedence (reg : Registry V) (base : Record)
    (pref : Preference V) (v : V) (s : String)
    (hpk : base.pk = none)
    (hreg : preferenceOf reg base = some pref)
    (hser : pref.serializer.serialize v = some s)
    (hrt : pref.serializer.deserialize (some s) = some v) :
    Record.init reg base (some (some v)) = .ok { base with raw_value := some s } ∧
    get_value reg { base with raw_value := some s } = .ok v := by
  constructor
  · simp [Record.init, set_value, hpk, hreg, hser]
  · have hreg2 : preferenceOf reg { base with raw_value := some s } = some pref :=
      hreg
    simp [get_value, hreg2, hrt]

/-- Witness for C2: explicit value `3` wins over the default `7`. -/
theorem explicit_value_precedence_w :
    Record.init demoReg freshRec (some (some 3)) =
      .ok { freshRec with raw_value := some "xxx" } ∧
    get_value demoReg { freshRec with raw_value := some "xxx" } = .ok 3 :=
  explicit_value_precedence demoReg freshRec demoPref 3 "xxx" rfl rfl rfl rfl

/-- C5: a value rejected by the serializer makes the `value` setter raise
`SerializationError` with the record still in its pre-call state — in
particular `raw_value` is unmodified. -/
theorem serialization_error_preserves_state (reg : Registry V) (r : Record)
    (pref : Preference V) (v : V)
    (hreg : preferenceOf reg r = some pref)
    (hser : pref.serializer.serialize v = none) :
    set_value reg r v = .error (.serializationError, r) := by
  simp [set_value, hreg, hser]

/-- Witness for C5: the demo serializer rejects `1000`; the stored raw
text `"7"` survives. -/
theorem serialization_error_preserves_state_w :
    set_value demoReg storedRec 1000 = .error (.serializationError, storedRec) :=
  serialization_error_preserves_state demoReg storedRec demoPref 1000 rfl rfl

/-- C6: a record whose `raw_value` the definition's deserializer rejects
raises `DeserializationError` on `value` access — the accessor returns an
error, not the default or any fallback value. -/
theorem deserialization_error_surfaces (reg : Registry V) (r : Record)
    (pref : Preference V)
    (hreg : preferenceOf reg r = some pref)
    (hde : pref.serializer.deserialize r.raw_value = none) :
    get_value reg r = .error .deserializationError := by
  simp [get_value, hreg, hde]

/-- Witness for C6: raw text `"xx"` is not a numeral. -/
theorem deserialization_error_surfaces_w :
    get_value demoReg corruptRec = .error .deserializationError :=
  deserialization_error_surfaces demoReg corruptRec demoPref rfl rfl

/-- C8: constructing an instance that represents an already-persisted row
(`pk` set) performs no default materialization and no value handling: the
constructor returns the record exactly as loaded, whatever the `value`
kwarg was. -/
theorem persisted_row_untouched (reg : Registry V) (base : Record) (k : Nat)
    (kw : Option (Option V)) (hpk : base.pk = some k) :
    Record.init reg base kw = .ok base := by
  simp [Record.init, hpk]

/-- Witness for C8: a stored row keeps its raw text `"7"` even when an
explicit `value=42` kwarg is supplied. -/
theorem persisted_row_untouched_w :
    Record.init demoReg storedRec (some (some 42)) = .ok storedRec :=
  persisted_row_untouched demoReg storedRec 1 (some (some 42)) rfl

/-- C9: passing `value=None` explicitly is indistinguishable from not
passing `value` at all — `kwargs.pop("value", None)` collapses both to
`None`, so the constructor behaves identically. -/
theorem value_none_equals_absent (reg : Registry V) (base : Record) :
    Record.init reg base (some none) = Record.init reg base none := rfl

/-- If some scanned record's `value` accessor raises, the `to_dict` loop
cannot return a dict, wherever that record sits in the scan. -/
lemma to_dict_go_not_ok (reg : Registry V) (e : PrefError) (p : Record) :
    ∀ (l : List Record) (d : Outer V), p ∈ l → get_value reg p = .error e →
      ∀ d2, to_dict_go reg d l ≠ .ok d2 := by
  intro l
  induction l with
  | nil =>
    intro d hmem _ _ _
    exact absurd hmem (List.not_mem_nil p)
  | cons q l ih =>
    intro d hmem herr d2 hok
    rcases List.mem_cons.mp hmem with h | h
    · subst h
      simp [to_dict_go, herr] at hok
    · cases hq : get_value reg q with
      | error e2 => simp [to_dict_go, hq] at hok
      | ok w =>
        simp only [to_dict_go, hq] at hok
        exact ih (stepDict d q w) h herr d2 hok

/-- Decodable demo record at `(some "s", "n")` with value `1`. -/
def recA : Record := ⟨some 11, some "s", "n", some "x", none⟩

/-- Decodable demo record at `(some "s", "n2")` with value `2`. -/
def recB : Record := ⟨some 12, some "s", "n2", some "xx", none⟩

/-- Decodable demo record at `(some "s2", "n3")` with value `3`. -/
def recC : Record := ⟨some 13, some "s2", "n3", some "xxx", none⟩

/-- Decodable demo record with a null section, value `4`. -/
def recD : Record := ⟨some 14, none, "n4", some "xxxx", none⟩

/-- Demo record at `(some "s", "n")` owned by owner `1`, value `1`. -/
def dupA : Record := ⟨some 21, some "s", "n", some "x", some 1⟩

/-- Demo record at the same `(some "s", "n")` but owned by owner `2`,
value `2`. -/
def dupB : Record := ⟨some 22, some "s", "n", some "xx", some 2⟩

/-- C3 (amended): when every scanned record decodes, `to_dict` returns
the two-level mapping in which every scanned record whose `(section,
name)` coordinates are not repeated by a later scanned record contributes
its deserialized value under those coordinates (records with a null
section sit under the `none` key). -/
theorem grouping_correctness (reg : Registry V) (f : Filter)
    (qs : List Record)
    (hdec : ∀ p ∈ queryset f qs, ∃ w, get_value reg p = .ok w) :
    ∃ d, to_dict reg f qs = .ok d ∧
      ∀ (l1 : List Record) (p : Record) (l2 : List Record),
        queryset f qs = l1 ++ p :: l2 →
        (∀ q ∈ l2, ¬(q.«section» = p.«section» ∧ q.name = p.name)) →
        ∀ v, get_value reg p = .ok v →
        lookup2 d p.«section» p.name = some v := by
  obtain ⟨d, hd, hl⟩ := to_dict_go_spec reg (queryset f qs) Outer.empty hdec
  refine ⟨d, hd, ?_⟩
  intro l1 p l2 hsplit hafter v hv
  have h2 : lastVal reg p.«section» p.name l2 = none :=
    lastVal_eq_none reg p.«section» p.name l2 hafter
  have hlast : lastVal reg p.«section» p.name (queryset f qs) = some v := by
    rw [hsplit, lastVal_append]
    simp [lastVal, h2, hv]
  rw [hl p.«section» p.name, hlast]

/-- Counterexample to C3 as stated: two decodable scanned records share
the coordinates `(some "s", "n")`; the first one (value `1`) does not
contribute its value to the returned mapping, which holds `2` there. -/
theorem grouping_correctness_cex :
    get_value demoReg dupA = .ok 1 ∧
    dupA ∈ queryset Filter.empty [dupA, dupB] ∧
    Except.map (fun d => lookup2 d (some "s") "n")
      (to_dict demoReg Filter.empty [dupA, dupB]) = .ok (some 2) ∧
    some (2 : Nat) ≠ some 1 := by
  refine ⟨rfl, ?_, rfl, by decide⟩
  exact List.mem_cons_self dupA [dupB]

/-- Witness for the amended C3: the spec's three-record example plus a
null-section record, read back at all four coordinates. -/
theorem grouping_correctness_w :
    ∃ d, to_dict demoReg Filter.empty [recA, recB, recC, recD] = .ok d ∧
      lookup2 d (some "s") "n" = some 1 ∧
      lookup2 d (some "s") "n2" = some 2 ∧
      lookup2 d (some "s2") "n3" = some 3 ∧
      lookup2 d none "n4" = some 4 := by
  obtain ⟨d, hd, hl⟩ :=
    grouping_correctness demoReg Filter.empty [recA, recB, recC, recD]
      (by
        intro p hp
        simp only [queryset, Filter.isEmpty, Filter.empty, Option.isNone,
          Bool.and_self, if_true, List.mem_cons, List.not_mem_nil,
          or_false] at hp
        rcases hp with rfl | rfl | rfl | rfl
        exacts [⟨1, rfl⟩, ⟨2, rfl⟩, ⟨3, rfl⟩, ⟨4, rfl⟩])
  refine ⟨d, hd, ?_, ?_, ?_, ?_⟩
  · exact hl [] recA [recB, recC, recD] rfl (by decide) 1 rfl
  · exact hl [recA] recB [recC, recD] rfl (by decide) 2 rfl
  · exact hl [recA, recB] recC [recD] rfl (by decide) 3 rfl
  · exact hl [recA, recB, recC] recD [] rfl (by decide) 4 rfl

/-- C7: a scanned record whose `value` accessor raises makes the whole
bulk read fail: no mapping is ever returned, and the first undecodable
record's error is the one raised. -/
theorem bulk_read_all_or_nothing (reg : Registry V) (f : Filter)
    (qs : List Record) :
    (∀ p ∈ queryset f qs, ∀ e, get_value reg p = .error e →
      ∀ d, to_dict reg f qs ≠ .ok d) ∧
    (∀ (l1 : List Record) (p : Record) (l2 : List Record) (e : PrefError),
      queryset f qs = l1 ++ p :: l2 →
      (∀ q ∈ l1, ∃ w, get_value reg q = .ok w) →
      get_value reg p = .error e →
      to_dict reg f qs = .error e) := by
  constructor
  · intro p hp e he d hok
    exact to_dict_go_not_ok reg e p (queryset f qs) Outer.empty hp he d hok
  · intro l1 p l2 e hsplit hok herr
    show to_dict_go reg Outer.empty (queryset f qs) = .error e
    rw [hsplit]
    exact to_dict_go_err reg e p l2 l1 Outer.empty hok herr

/-- Witness for C7: a corrupt record after a good one aborts the bulk
read with its `DeserializationError`. -/
theorem bulk_read_all_or_nothing_w :
    to_dict demoReg Filter.empty [recA, corruptRec] =
      .error .deserializationError :=
  (bulk_read_all_or_nothing demoReg Filter.empty [recA, corruptRec]).2
    [recA] corruptRec [] .deserializationError rfl
    (by
      intro q hq
      rw [List.mem_singleton] at hq
      subst hq
      exact ⟨1, rfl⟩)
    rfl

/-- C10: with no owner filter, of two decodable scanned records from
different owners sharing `(section, name)`, only the later-scanned one's
value survives in the mapping; the earlier one is silently overwritten. -/
theorem later_owner_overwrites (reg : Registry V)
    (qs l1 l2 l3 : List Record) (p1 p2 : Record)
    (hq : qs = l1 ++ p1 :: l2 ++ p2 :: l3)
    (hs : p2.«section» = p1.«section») (hn : p2.name = p1.name)
    (howner : p1.owner ≠ p2.owner)
    (hafter : ∀ q ∈ l3, ¬(q.«section» = p1.«section» ∧ q.name = p1.name))
    (hdec : ∀ p ∈ qs, ∃ w, get_value reg p = .ok w)
    (v2 : V) (hv2 : get_value reg p2 = .ok v2) :
    ∃ d, to_dict reg Filter.empty qs = .ok d ∧
      lookup2 d p1.«section» p1.name = some v2 ∧
      ∀ v1, get_value reg p1 = .ok v1 → v1 ≠ v2 →
        lookup2 d p1.«section» p1.name ≠ some v1 := by
  obtain ⟨d, hd, hl⟩ := to_dict_go_spec reg qs Outer.empty hdec
  have h3 : lastVal reg p1.«section» p1.name l3 = none :=
    lastVal_eq_none reg p1.«section» p1.name l3 hafter
  have hp23 : lastVal reg p1.«section» p1.name (p2 :: l3) = some v2 := by
    simp [lastVal, h3, hv2, hs, hn]
  have hlast : lastVal reg p1.«section» p1.name qs = some v2 := by
    subst hq
    rw [lastVal_append, hp23]
  have hval : lookup2 d p1.«section» p1.name = some v2 := by
    rw [hl p1.«section» p1.name, hlast]
  refine ⟨d, hd, hval, ?_⟩
  intro v1 _ hne heq
  rw [hval] at heq
  exact hne (Option.some.inj heq).symm

/-- Witness for C10: `dupA` (owner 1, value 1) is overwritten by `dupB`
(owner 2, value 2) at the shared coordinates. -/
theorem later_owner_overwrites_w :
    ∃ d, to_dict demoReg Filter.empty [dupA, dupB] = .ok d ∧
      lookup2 d (some "s") "n" = some 2 ∧
      lookup2 d (some "s") "n" ≠ some 1 := by
  obtain ⟨d, hd, hv, hne⟩ :=
    later_owner_overwrites demoReg [dupA, dupB] [] [] [] dupA dupB rfl rfl rfl
      (by decide)
      (by intro q hq; exact absurd hq (List.not_mem_nil q))
      (by
        intro p hp
        simp only [List.mem_cons, List.not_mem_nil, or_false] at hp
        rcases hp with rfl | rfl
        exacts [⟨1, rfl⟩, ⟨2, rfl⟩])
      2 rfl
  exact ⟨d, hd, hv, hne 1 rfl (by decide)⟩

/-- C4: the post-save hook invokes the bound registry's
`create_default_preferences(owner)` exactly once when the save was a
creation and the sender type is in the `per_instance_preferences` index,
and performs no invocation at all on an update or for an unbound type. -/
theorem auto_provisioning_exactly_once
    (index : Nat → Option (PreferenceClass V)) (sender : Nat)
    (created : Bool) (inst : Nat) :
    (∀ pc, index sender = some pc → created = true →
      create_default_per_instance_preferences index sender created inst =
        [⟨pc.registry, inst⟩]) ∧
    (created = false →
      create_default_per_instance_preferences index sender created inst = []) ∧
    (index sender = none →
      create_default_per_instance_preferences index sender created inst = []) := by
  refine ⟨?_, ?_, ?_⟩
  · intro pc hpc hc
    subst hc
    simp [create_default_per_instance_preferences, hpc]
  · intro hc
    subst hc
    cases hx : index sender <;>
      simp [create_default_per_instance_preferences, hx]
  · intro hpc
    cases created <;>
      simp [create_default_per_instance_preferences, hpc]

/-- The model class bound to the demo registry, as the
`per_instance_preferences` index stores it. -/
def demoClass : PreferenceClass Nat := ⟨demoReg⟩

/-- A demo type-to-registry index: sender type `0` is bound, all other
sender types are unbound. -/
def demoIndex : Nat → Option (PreferenceClass Nat) :=
  fun k => if k = 0 then some demoClass else none

/-- Witness for C4: one invocation for a bound creation, none for an
update and none for an unbound sender type. -/
theorem auto_provisioning_exactly_once_w :
    create_default_per_instance_preferences demoIndex 0 true 5 =
      [⟨demoClass.registry, 5⟩] ∧
    create_default_per_instance_preferences demoIndex 0 false 5 = [] ∧
    create_default_per_instance_preferences demoIndex 1 true 5 = [] :=
  ⟨(auto_provisioning_exactly_once demoIndex 0 true 5).1 demoClass rfl rfl,
   (auto_provisioning_exactly_once demoIndex 0 false 5).2.1 rfl,
   (auto_provisioning_exactly_once demoIndex 1 true 5).2.2 rfl⟩

end DynamicPreferences
